import Mathlib

/-!
Verification of the packing-tracker processing engine (src/app.py).

The whole engine lives in the function build_joined_df together with the
helpers _norm, _suggest, classify and sum_bonus.  The definitions below are
a shallow embedding of those functions: pandas tables become lists of
structures, timestamps become Option Int (seconds; none models NaT),
float columns become rationals, and a pandas KeyError becomes Except.error.
Line numbers in the doc comments refer to src/app.py.
-/

namespace PackingApp

/-- Embedding of Python str.strip: drop leading and trailing whitespace.
Computed on the character list so concrete instances evaluate by decide. -/
def stripStr (s : String) : String :=
  String.mk (((s.data.dropWhile Char.isWhitespace).reverse.dropWhile
    Char.isWhitespace).reverse)

/-- Embedding of Python str.upper: upper-case every character. -/
def upperStr (s : String) : String := String.mk (s.data.map Char.toUpper)

/-- Embedding of _norm (app.py lines 15-16): upper-case the string, then strip
surrounding whitespace.  The Python join over the characters is the identity. -/
def _norm (s : String) : String := stripStr (upperStr s)

/-- Embedding of _suggest (app.py lines 18-24): walk the candidate list in
order; for the first candidate whose normalization occurs among the
normalized headers return the header at that position (Python
cols[cols_n.index(n)]); if no candidate matches return the first header
(None for an empty header list). -/
def _suggest (cols : List String) : List String → Option String
  | [] => cols.head?
  | cand :: rest =>
    if (cols.map _norm).contains (_norm cand) then
      cols.get? ((cols.map _norm).indexOf (_norm cand))
    else _suggest cols rest

/-- Embedding of classify (app.py lines 133-138).  sku_u is none when
pd.isna(sku_u) holds; only_norm is none when the Python value is None, in
which case the Python membership test yields False. -/
def classify (sku_u : Option Nat) (qty_t : Int) (only_norm : Option String)
    (specialSet : List String) : String :=
  match sku_u with
  | none => "Tidak Diketahui"
  | some n =>
    if n = 1 then
      if (match only_norm with
          | some c => specialSet.contains c
          | none => false) then "Spesial" else "Satuan"
    else if qty_t ≤ 3 then "Biasa" else "Campuran"

/-- Embedding of the status rule (app.py line 144): one entry of the list
comprehension over zip(actual_sec, allowed_sec). -/
def statusRes (actual allowed : ℚ) : String :=
  if actual ≤ allowed then "OK" else "LAMBAT"

/-- Embedding of sum_bonus (app.py lines 122-123): the handling map is
queried once per distinct normalized code of the group (Python set(...));
absent codes contribute 0. -/
def sum_bonus (hm : String → Option ℚ) (skus : List String) : ℚ :=
  ((skus.dedup).map (fun x => ((hm x).getD 0))).sum

/-- One raw cell of the QTY column before pd.to_numeric (app.py line 68).
missing models NaN input, malformed models a string that to_numeric cannot
parse (coerced to NaN), num models a numeric value. -/
inductive QtyCell where
  | missing
  | malformed
  | num (q : ℚ)
deriving DecidableEq

/-- Truncation toward zero, the behaviour of numpy astype(int) on floats. -/
def truncQ (q : ℚ) : Int := if 0 ≤ q then ⌊q⌋ else ⌈q⌉

/-- Embedding of app.py line 68:
pd.to_numeric(errors="coerce").fillna(0).astype(int). -/
def parseQty : QtyCell → Int
  | QtyCell.missing => 0
  | QtyCell.malformed => 0
  | QtyCell.num q => truncQ q

/-- Canonical scan-table columns in the order the code first accesses them
(app.py lines 66, 98, 99, 105). -/
def requiredCanonical : List String := ["NO RESI", "TANGGAL SCAN", "JAM SCAN", "NAMA"]

/-- Embedding of pandas DataFrame.rename(columns=dict(m)) (app.py lines
54-59): every column name that is a key of the mapping is replaced, all
others (including mapping keys that name no existing column) are left
untouched; no error is raised. -/
def renameCols (m : List (String × String)) (cols : List String) : List String :=
  cols.map (fun c => ((m.lookup c).getD c))

/-- Embedding of the column accesses that follow the rename (app.py lines
66, 98, 99, 105): the first canonical column absent from the renamed table
raises a pandas KeyError naming that column, modelled as Except.error;
when every canonical column is present the computation proceeds. -/
def schemaAccess (m : List (String × String)) (cols : List String) : Except String Unit :=
  match requiredCanonical.find? (fun f => !((renameCols m cols).contains f)) with
  | some f => Except.error f
  | none => Except.ok ()

/-- Embedding of app.py line 108: DURASI = DURASI_SEC // 60, a float floor
division whose result is cast to int; on integral seconds this is the
floor division of integers. -/
def durasiCol (dsec : Int) : Int := Int.fdiv dsec 60

/-- Embedding of the preferred output prefix (app.py line 151). -/
def preferredCols : List String :=
  ["TANGGAL SCAN", "JAM SCAN", "NAMA", "NO RESI", "PESANAN", "STATUS", "DURASI", "SKU", "QTY"]

/-- Embedding of app.py line 149: df.drop(columns=["DURASI_SEC","SKU_NORM"]). -/
def dropWorking (cols : List String) : List String :=
  cols.filter (fun c => !(c == "DURASI_SEC") && !(c == "SKU_NORM"))

/-- Embedding of app.py line 152: preferred columns that exist, followed by
the remaining columns in their original order. -/
def projectCols (cols : List String) : List String :=
  preferredCols.filter (fun c => cols.contains c)
    ++ cols.filter (fun c => !(preferredCols.contains c))

/-- Column list of the returned table (app.py lines 149-153). -/
def outputCols (cols : List String) : List String := projectCols (dropWorking cols)

/-- One scan row as it enters the join (app.py line 113): the operator name,
the shipment id and the per-row duration in seconds computed at line 107. -/
structure ScanRow where
  nama : String
  noResi : String
  durSec : Int
deriving DecidableEq

/-- One row of the contents table after line 68. -/
structure SkuRow where
  noResi : String
  sku : String
  qty : Int
deriving DecidableEq

/-- One row of the joined table df (app.py lines 113-114). -/
structure JoinedRow where
  nama : String
  noResi : String
  durSec : Int
  sku : String
  qty : Int
  skuNorm : String
deriving DecidableEq

/-- Embedding of the NO RESI trim on the scan table (app.py line 66). -/
def strip_scan (r : ScanRow) : ScanRow := { r with noResi := stripStr r.noResi }

/-- Embedding of the NO RESI trim on the contents table (app.py line 67). -/
def strip_sku (s : SkuRow) : SkuRow := { s with noResi := stripStr s.noResi }

/-- Embedding of pd.merge(df_resi, df_sku, on="NO RESI", how="inner") plus
the SKU_NORM column (app.py lines 113-114): every scan row is paired with
every contents row carrying the same id. -/
def merge_inner (resi : List ScanRow) (sku : List SkuRow) : List JoinedRow :=
  resi.flatMap (fun r =>
    (sku.filter (fun s => s.noResi == r.noResi)).map (fun s =>
      { nama := r.nama, noResi := r.noResi, durSec := r.durSec,
        sku := s.sku, qty := s.qty, skuNorm := _norm s.sku }))

/-- The join as performed by the engine: both id columns are trimmed
(lines 66-67) before the inner merge (line 113). -/
def joinResiSku (resi : List ScanRow) (sku : List SkuRow) : List JoinedRow :=
  merge_inner (resi.map strip_scan) (sku.map strip_sku)

/-- Group keys of df.groupby("NO RESI") (app.py lines 117-125): the distinct
shipment ids of the joined table. -/
def resis (df : List JoinedRow) : List String := (df.map (fun j => j.noResi)).dedup

/-- One row of the per-shipment aggregate agg (app.py lines 117-144). -/
structure AggRow where
  noResi : String
  skuUnik : Nat
  qtyTotal : Int
  onlySku : Option String
  durResiSec : Int
  bonusSec : ℚ
  pesanan : String
  status : String
deriving DecidableEq

/-- Embedding of the aggregation for one shipment id (app.py lines 117-144):
SKU_UNIK = nunique of SKU_NORM, QTY_TOTAL = sum of QTY, ONLY_SKU_NORM = the
sole element when the normalized-code set is a singleton, DURASI_PER_RESI_SEC
= first DURASI_SEC of the group (fillna(0) at line 142), BONUS_SEC =
sum_bonus, then PESANAN_RES (line 140) and STATUS_RES (lines 142-144) with
allowed seconds QTY_TOTAL * 30 + BONUS_SEC. -/
def aggFor (specialSet : List String) (hm : String → Option ℚ)
    (df : List JoinedRow) (r : String) : AggRow :=
  let g := df.filter (fun j => j.noResi == r)
  let skus := (g.map (fun j => j.skuNorm)).dedup
  let qtyT := (g.map (fun j => j.qty)).sum
  let onlyS := match skus with
    | [s] => some s
    | _ => none
  let durS := ((g.map (fun j => j.durSec)).head?).getD 0
  let bonus := sum_bonus hm (g.map (fun j => j.skuNorm))
  { noResi := r, skuUnik := skus.length, qtyTotal := qtyT, onlySku := onlyS,
    durResiSec := durS, bonusSec := bonus,
    pesanan := classify (some skus.length) qtyT onlyS specialSet,
    status := statusRes (durS : ℚ) ((qtyT : ℚ) * 30 + bonus) }

/-- The aggregate table agg (app.py lines 127-144), one row per distinct id. -/
def buildAgg (specialSet : List String) (hm : String → Option ℚ)
    (df : List JoinedRow) : List AggRow :=
  (resis df).map (aggFor specialSet hm df)

/-- One row of the returned table (app.py lines 147-153): PESANAN and STATUS
broadcast from agg (none models the NaN a failed left-merge lookup would
leave), DURASI_SEC and SKU_NORM dropped, DURASI = DURASI_SEC // 60 retained. -/
structure OutRow where
  nama : String
  noResi : String
  durasi : Int
  sku : String
  qty : Int
  pesanan : Option String
  status : Option String
deriving DecidableEq

/-- Embedding of the left-merge lookup for one joined row (app.py line 147):
the unique agg row carrying this row's shipment id supplies PESANAN and
STATUS; a missing id would leave NaN, modelled as none. -/
def mergeRow (agg : List AggRow) (j : JoinedRow) : OutRow :=
  { nama := j.nama, noResi := j.noResi, durasi := durasiCol j.durSec,
    sku := j.sku, qty := j.qty,
    pesanan := (agg.find? (fun a => a.noResi == j.noResi)).map (fun x => x.pesanan),
    status := (agg.find? (fun a => a.noResi == j.noResi)).map (fun x => x.status) }

/-- Embedding of the left merge of agg back onto df plus the rename and the
column drop (app.py lines 147-149). -/
def mergeBack (df : List JoinedRow) (agg : List AggRow) : List OutRow :=
  df.map (mergeRow agg)

/-- Helper for drop_duplicates(subset="NO RESI"): keep the first row carrying
each shipment id. -/
def dedupByResiGo : List String → List OutRow → List OutRow
  | _, [] => []
  | seen, r :: rest =>
    if r.noResi ∈ seen then dedupByResiGo seen rest
    else r :: dedupByResiGo (r.noResi :: seen) rest

/-- Embedding of resi_level (app.py line 247). -/
def resi_level (out : List OutRow) : List OutRow := dedupByResiGo [] out

/-- Embedding of total_resi (app.py line 248): nunique of NO RESI over
resi_level. -/
def total_resi (out : List OutRow) : Nat :=
  (((resi_level out).map (fun r => r.noResi)).dedup).length

/-- Embedding of ok_count (app.py line 249). -/
def ok_count (out : List OutRow) : Nat :=
  (resi_level out).countP (fun r => r.status == some "OK")

/-- Embedding of bad_count (app.py line 250). -/
def bad_count (out : List OutRow) : Nat :=
  (resi_level out).countP (fun r => r.status == some "LAMBAT")

/-- One scan row before the duration pass (app.py lines 98-108): the
operator name NAMA, the normalized scan date TGL_NORM as a day count (none
models an unparseable date) and the combined timestamp SCAN_DT in seconds
(none when date or time failed to parse). -/
structure RawScan where
  nama : String
  tgl : Option Int
  dt : Option Int
deriving DecidableEq

/-- Comparison used by sort_values on an Option-valued key: NaT sorts last
(pandas na_position default). -/
def leOptDT : Option Int → Option Int → Bool
  | some a, some b => decide (a ≤ b)
  | some _, none => true
  | none, some _ => false
  | none, none => true

/-- Lexicographic row comparison of sort_values(["NAMA","TGL_NORM","SCAN_DT"])
(app.py line 105). -/
def rowLe (r1 r2 : RawScan) : Bool :=
  if r1.nama = r2.nama then
    if r1.tgl = r2.tgl then leOptDT r1.dt r2.dt else leOptDT r1.tgl r2.tgl
  else decide (r1.nama < r2.nama)

/-- Propositional form of rowLe, for List.insertionSort. -/
def rowLeP (r1 r2 : RawScan) : Prop := rowLe r1 r2 = true

instance : DecidableRel rowLeP := fun a b => inferInstanceAs (Decidable (rowLe a b = true))

/-- The scan table after sort_values (app.py line 105). -/
def sortedScans (rows : List RawScan) : List RawScan := List.insertionSort rowLeP rows

/-- Embedding of one entry of app.py line 107:
(SCAN_NEXT - SCAN_DT).total_seconds().fillna(0).clip(lower=0). -/
def durSec : Option Int → Option Int → Int
  | some a, some b => max (b - a) 0
  | _, _ => 0

/-- Embedding of groupby(["NAMA","TGL_NORM"])["SCAN_DT"].shift(-1) (app.py
line 106) at row index i: the SCAN_DT of the next row in table order whose
group key equals this row's key; none for the last row of a group and for
rows whose TGL_NORM is NaT (groupby drops null keys). -/
def scanNext (rows : List RawScan) (i : Nat) : Option Int :=
  match rows[i]? with
  | none => none
  | some r =>
    match r.tgl with
    | none => none
    | some t =>
      match (rows.drop (i + 1)).find? (fun r2 => r2.nama == r.nama && r2.tgl == some t) with
      | some r2 => r2.dt
      | none => none

/-- DURASI_SEC of the row at index i of the sorted table (app.py line 107). -/
def durAt (rows : List RawScan) (i : Nat) : Int :=
  match rows[i]? with
  | none => 0
  | some r => durSec r.dt (scanNext rows i)

/-- The DURASI_SEC column of the sorted scan table (app.py lines 105-107). -/
def durAll (rows : List RawScan) : List Int :=
  (List.range (sortedScans rows).length).map (durAt (sortedScans rows))

/-- Two same-operator same-day scans five minutes apart, used by concrete
instances. -/
def sampleScans : List RawScan :=
  [RawScan.mk "A" (some 0) (some 100), RawScan.mk "A" (some 0) (some 400)]

/-- Sample scan row used by concrete instances. -/
def sampleScanRow : ScanRow := { nama := "ANA", noResi := " R1 ", durSec := 300 }

/-- Sample contents row used by concrete instances. -/
def sampleSkuRow : SkuRow := { noResi := "R1", sku := "sku-a", qty := 2 }

/-- The joined row produced from the two sample rows. -/
def sampleJoinedRow : JoinedRow :=
  { nama := "ANA", noResi := "R1", durSec := 300, sku := "sku-a", qty := 2,
    skuNorm := "SKU-A" }

/-- A one-row joined table used by concrete instances. -/
def sampleJoined2 : JoinedRow :=
  { nama := "ANA", noResi := "R1", durSec := 100, sku := "S", qty := 2, skuNorm := "S" }

/-- The output row the engine produces from sampleJoined2 with an empty
handling map and the special set ["X"]. -/
def sampleOutRow : OutRow :=
  { nama := "ANA", noResi := "R1", durasi := 1, sku := "S", qty := 2,
    pesanan := some "Satuan", status := some "LAMBAT" }

/-! Helper lemmas shared by the claim theorems. -/

lemma contains_eq_true_iff (l : List String) (a : String) :
    l.contains a = true ↔ a ∈ l := by
  simp [List.contains_iff_exists_mem_beq, eq_comm]

lemma toFinset_dedup_list (l : List String) : l.dedup.toFinset = l.toFinset := by
  ext a
  simp [List.mem_toFinset, List.mem_dedup]

/-! Claim theorems. -/

/-- Claim C1: classify assigns, in order of evaluation, Tidak Diketahui when
the distinct-item count is null; for a count of exactly one, Spesial when
the sole normalized code lies in the special set and Satuan otherwise; and
for a count above one, Biasa when the total quantity is at most 3 and
Campuran otherwise. -/
theorem claim_C1_classify_cases (specialSet : List String) :
    (∀ (q : Int) (o : Option String), classify none q o specialSet = "Tidak Diketahui") ∧
    (∀ (q : Int) (c : String), classify (some 1) q (some c) specialSet =
      if c ∈ specialSet then "Spesial" else "Satuan") ∧
    (∀ (n : Nat) (q : Int) (o : Option String), 1 < n →
      classify (some n) q o specialSet = if q ≤ 3 then "Biasa" else "Campuran") := by
  refine ⟨fun q o => rfl, fun q c => ?_, fun n q o hn => ?_⟩
  · simp [classify, contains_eq_true_iff]
  · have hne : n ≠ 1 := by omega
    simp [classify, hne]

/-- Witness for claim C1 at a concrete mixed shipment. -/
theorem claim_C1_classify_cases_witness :
    classify (some 2) 3 none ["C222-AK328-2"] = "Biasa" := by
  have h := (claim_C1_classify_cases ["C222-AK328-2"]).2.2 2 3 none (by omega)
  rw [h]
  rfl

/-- Claim C2: the per-shipment status is OK exactly when the shipment
duration in seconds is at most total quantity times 30 plus the handling
bonus (the bonus enlarging the allowance, not the duration), it is LAMBAT
exactly otherwise, and no other value occurs. -/
theorem claim_C2_status_rule (specialSet : List String) (hm : String → Option ℚ)
    (df : List JoinedRow) (r : String) :
    ((aggFor specialSet hm df r).status = "OK" ↔
      ((aggFor specialSet hm df r).durResiSec : ℚ) ≤
        ((aggFor specialSet hm df r).qtyTotal : ℚ) * 30 + (aggFor specialSet hm df r).bonusSec) ∧
    ((aggFor specialSet hm df r).status = "LAMBAT" ↔
      ¬ (((aggFor specialSet hm df r).durResiSec : ℚ) ≤
        ((aggFor specialSet hm df r).qtyTotal : ℚ) * 30 + (aggFor specialSet hm df r).bonusSec)) ∧
    ((aggFor specialSet hm df r).status = "OK" ∨ (aggFor specialSet hm df r).status = "LAMBAT") := by
  have h : ∀ a b : ℚ, (statusRes a b = "OK" ↔ a ≤ b) ∧
      (statusRes a b = "LAMBAT" ↔ ¬ a ≤ b) ∧
      (statusRes a b = "OK" ∨ statusRes a b = "LAMBAT") := by
    intro a b
    unfold statusRes
    by_cases hab : a ≤ b
    · simp [hab]
    · simp [hab]
  exact h _ _

/-- Claim C6: the handling bonus of a shipment is the sum of the configured
bonuses over the set of distinct normalized codes, each distinct code
contributing once regardless of multiplicity, and absent codes
contributing 0. -/
theorem claim_C6_sum_bonus (hm : String → Option ℚ) (skus : List String) :
    (sum_bonus hm skus = ∑ x in skus.toFinset, ((hm x).getD 0)) ∧
    (∀ x ∈ skus, sum_bonus hm (x :: skus) = sum_bonus hm skus) ∧
    (∀ x, hm x = none → ((hm x).getD 0 : ℚ) = 0) := by
  refine ⟨?_, ?_, ?_⟩
  · have h := List.sum_toFinset (fun x => ((hm x).getD 0 : ℚ)) (List.nodup_dedup skus)
    rw [toFinset_dedup_list] at h
    exact h.symm
  · intro x hx
    unfold sum_bonus
    rw [List.dedup_cons_of_mem hx]
  · intro x hx
    rw [hx]
    rfl

/-- Witness for claim C6: a duplicated code contributes only once. -/
theorem claim_C6_sum_bonus_witness :
    sum_bonus (fun c => if c = "BM-AKS28-1" then some 60 else none)
      ("BM-AKS28-1" :: ["BM-AKS28-1", "X"]) =
    sum_bonus (fun c => if c = "BM-AKS28-1" then some 60 else none) ["BM-AKS28-1", "X"] :=
  (claim_C6_sum_bonus _ ["BM-AKS28-1", "X"]).2.1 "BM-AKS28-1" (by simp)

/-- Counterexample to claim C8 as stated: a contents row whose QTY cell
holds the numeric value -2 is ingested as the negative quantity -2, so not
every ingested quantity is a non-negative integer. -/
theorem claim_C8_counterexample : parseQty (QtyCell.num (-2)) < 0 := by
  have h : ((-2 : ℚ)) = ((-2 : Int) : ℚ) := by norm_num
  simp only [parseQty, truncQ, h]
  rw [if_neg (by norm_num), Int.ceil_intCast]
  norm_num

/-- Claim C8 (amended): malformed and missing quantity cells coerce to 0
without failing, a non-negative numeric cell yields a non-negative integer,
and an integral numeric cell keeps its value, so negative inputs survive as
negative quantities. -/
theorem claim_C8_amended :
    (parseQty QtyCell.missing = 0) ∧ (parseQty QtyCell.malformed = 0) ∧
    (∀ q : ℚ, 0 ≤ q → 0 ≤ parseQty (QtyCell.num q)) ∧
    (∀ n : Int, parseQty (QtyCell.num (n : ℚ)) = n) := by
  refine ⟨rfl, rfl, ?_, ?_⟩
  · intro q hq
    simp only [parseQty, truncQ]
    rw [if_pos hq]
    exact Int.floor_nonneg.mpr hq
  · intro n
    simp only [parseQty, truncQ]
    by_cases h : (0 : ℚ) ≤ (n : ℚ)
    · rw [if_pos h]
      exact Int.floor_intCast n
    · rw [if_neg h]
      exact Int.ceil_intCast n

/-- Witness for the amended claim C8 at quantity 5. -/
theorem claim_C8_amended_witness : (0 : Int) ≤ parseQty (QtyCell.num 5) :=
  claim_C8_amended.2.2.1 5 (by norm_num)

/-- Python cols[cols_n.index(n)] in _suggest is the first header whose
normalization equals the sought value. -/
lemma get?_indexOf_map_norm (y : String) (cols : List String) :
    cols.get? ((cols.map _norm).indexOf y) = cols.find? (fun c => _norm c == y) := by
  induction cols with
  | nil => rfl
  | cons c cs ih =>
    by_cases h : (_norm c == y) = true
    · simp only [List.map_cons, List.indexOf_cons, h, cond_true, List.get?_cons_zero]
      rw [@List.find?_cons_of_pos String (fun c => _norm c == y) c cs h]
    · have h' : (_norm c == y) = false := by simpa using h
      simp only [List.map_cons, List.indexOf_cons, h', cond_false, List.get?_cons_succ]
      rw [@List.find?_cons_of_neg String (fun c => _norm c == y) c cs h]
      exact ih

/-- Claim C9: the header suggester scans the ordered candidate list and, for
the first candidate matching some header up to case and surrounding
whitespace, returns the first such header; when no candidate matches any
header it returns the first header, so on a non-empty header list it always
returns one of the headers. -/
theorem claim_C9_suggest (cols cands : List String) :
    (_suggest cols cands =
      match cands.find? (fun cand => (cols.map _norm).contains (_norm cand)) with
      | some cand => cols.find? (fun c => _norm c == _norm cand)
      | none => cols.head?) ∧
    (cols ≠ [] → ∃ c, _suggest cols cands = some c ∧ c ∈ cols) := by
  have key : ∀ cands', _suggest cols cands' =
      match cands'.find? (fun cand => (cols.map _norm).contains (_norm cand)) with
      | some cand => cols.find? (fun c => _norm c == _norm cand)
      | none => cols.head? := by
    intro cands'
    induction cands' with
    | nil => rfl
    | cons cand rest ih =>
      by_cases h : ((cols.map _norm).contains (_norm cand)) = true
      · simp only [_suggest]
        rw [if_pos h,
          @List.find?_cons_of_pos String
            (fun cand => (List.map _norm cols).contains (_norm cand)) cand rest h]
        exact get?_indexOf_map_norm (_norm cand) cols
      · simp only [_suggest]
        rw [if_neg h,
          @List.find?_cons_of_neg String
            (fun cand => (List.map _norm cols).contains (_norm cand)) cand rest h]
        exact ih
  refine ⟨key cands, ?_⟩
  intro hne
  cases hfind : cands.find? (fun cand => (cols.map _norm).contains (_norm cand)) with
  | none =>
    have h1 := key cands
    rw [hfind] at h1
    cases cols with
    | nil => exact absurd rfl hne
    | cons c cs => exact ⟨c, by simpa using h1, List.mem_cons_self c cs⟩
  | some cand =>
    have h1 := key cands
    rw [hfind] at h1
    have hp0 := List.find?_some hfind
    have hp : ((cols.map _norm).contains (_norm cand)) = true := hp0
    have hex : ∃ c ∈ cols, (_norm c == _norm cand) = true := by
      rcases List.contains_iff_exists_mem_beq.mp hp with ⟨b, hb, hbeq⟩
      rcases List.mem_map.mp hb with ⟨c, hc, rfl⟩
      refine ⟨c, hc, ?_⟩
      simp only [beq_iff_eq] at hbeq ⊢
      exact hbeq.symm
    have hsome : (cols.find? (fun c => _norm c == _norm cand)).isSome = true :=
      List.find?_isSome.mpr hex
    rcases Option.isSome_iff_exists.mp hsome with ⟨c, hc⟩
    refine ⟨c, ?_, List.mem_of_find?_eq_some hc⟩
    rw [h1]
    exact hc

/-- Witness for claim C9: with no matching candidate the first header comes
back. -/
theorem claim_C9_suggest_witness :
    ∃ c, _suggest ["NO RESI", "QTY"] ["SKU"] = some c ∧ c ∈ ["NO RESI", "QTY"] :=
  (claim_C9_suggest ["NO RESI", "QTY"] ["SKU"]).2 (by simp)

/-- Claim C10: the DURASI column is the integer floor of DURASI_SEC divided
by 60 (so any duration strictly between 0 and 60 seconds displays as 0),
the seconds column DURASI_SEC is removed from the projected output while
DURASI is kept, and every output row's DURASI is the floor-division of that
row's DURASI_SEC. -/
theorem claim_C10_durasi_output :
    (∀ d : Int, 0 < d → d < 60 → durasiCol d = 0) ∧
    (∀ d : Int, durasiCol d = ⌊(d : ℚ) / 60⌋) ∧
    (∀ cols : List String, "DURASI_SEC" ∉ outputCols cols) ∧
    (∀ cols : List String, "DURASI" ∈ cols → "DURASI" ∈ outputCols cols) ∧
    (∀ (df : List JoinedRow) (agg : List AggRow),
      (mergeBack df agg).map (fun o => o.durasi) = df.map (fun j => durasiCol j.durSec)) := by
  have hfd : ∀ d : Int, durasiCol d = d / 60 := fun d => Int.fdiv_eq_ediv d (by norm_num)
  refine ⟨?_, ?_, ?_, ?_, ?_⟩
  · intro d h1 h2
    rw [hfd d]
    exact Int.ediv_eq_zero_of_lt (le_of_lt h1) h2
  · intro d
    rw [hfd d]
    have h := Rat.floor_intCast_div_natCast d 60
    norm_num at h
    exact h.symm
  · intro cols hmem
    simp only [outputCols, projectCols, dropWorking] at hmem
    rcases List.mem_append.mp hmem with h | h
    · have h1 := (List.mem_filter.mp h).1
      revert h1
      decide
    · have h2 := (List.mem_filter.mp h).1
      have h3 := (List.mem_filter.mp h2).2
      simp at h3
  · intro cols h
    simp only [outputCols, projectCols, dropWorking]
    apply List.mem_append.mpr
    left
    apply List.mem_filter.mpr
    refine ⟨by decide, ?_⟩
    apply (contains_eq_true_iff _ _).mpr
    apply List.mem_filter.mpr
    exact ⟨h, by decide⟩
  · intro df agg
    unfold mergeBack
    rw [List.map_map]
    exact List.map_congr_left (fun j hj => rfl)

/-- Witness for claim C10 at 30 seconds and a two-column table. -/
theorem claim_C10_durasi_output_witness :
    durasiCol 30 = 0 ∧ "DURASI" ∈ outputCols ["DURASI", "DURASI_SEC"] :=
  ⟨claim_C10_durasi_output.1 30 (by norm_num) (by norm_num),
   claim_C10_durasi_output.2.2.2.1 ["DURASI", "DURASI_SEC"] (by decide)⟩

/-- Counterexample to claim C7 as stated: the mapping sends the absent
source column TGL to the canonical TANGGAL SCAN, so the mapping identifies
no source column for that required canonical field, yet the engine raises
no error at all (the rename is a silent no-op and the table already carries
canonical-named columns), contradicting the claimed SchemaError failure. -/
theorem claim_C7_counterexample :
    ("TGL" ∉ ["TANGGAL SCAN", "JAM SCAN", "NAMA", "NO RESI"]) ∧
    schemaAccess [("TGL", "TANGGAL SCAN")] ["TANGGAL SCAN", "JAM SCAN", "NAMA", "NO RESI"]
      = Except.ok () := by
  exact ⟨by decide, rfl⟩

/-- Claim C7 (amended): the engine performs no mapping validation and has no
SchemaError; it fails only when, after the silent rename, some required
canonical column is missing from the table, and then the first failing
column access raises an error naming that canonical column; when every
canonical column is present after the rename the computation proceeds even
if the mapping referenced absent source columns. -/
theorem claim_C7_amended (m : List (String × String)) (cols : List String) :
    (∀ f, schemaAccess m cols = Except.error f →
      f ∈ requiredCanonical ∧ f ∉ renameCols m cols) ∧
    (schemaAccess m cols = Except.ok () ↔
      ∀ f ∈ requiredCanonical, f ∈ renameCols m cols) := by
  cases hfind : requiredCanonical.find? (fun f => !((renameCols m cols).contains f)) with
  | none =>
    have hacc : schemaAccess m cols = Except.ok () := by
      unfold schemaAccess
      rw [hfind]
    constructor
    · intro f hf
      rw [hacc] at hf
      exact absurd hf (by simp)
    · rw [hacc]
      constructor
      · intro _ f hf
        have hnot := List.find?_eq_none.mp hfind f hf
        simpa using hnot
      · intro _
        rfl
  | some f0 =>
    have hacc : schemaAccess m cols = Except.error f0 := by
      unfold schemaAccess
      rw [hfind]
    have hp := List.find?_some hfind
    simp at hp
    have hmem := List.mem_of_find?_eq_some hfind
    constructor
    · intro f hf
      rw [hacc] at hf
      have hf0 : f0 = f := by
        simpa using hf
      subst hf0
      exact ⟨hmem, hp⟩
    · rw [hacc]
      constructor
      · intro h
        exact absurd h (by simp)
      · intro hall
        exact absurd (hall f0 hmem) hp

/-- Witness for the amended claim C7: with an empty mapping and the four
canonical columns already present the engine proceeds. -/
theorem claim_C7_amended_witness :
    schemaAccess [] ["NO RESI", "TANGGAL SCAN", "JAM SCAN", "NAMA"] = Except.ok () :=
  (claim_C7_amended [] ["NO RESI", "TANGGAL SCAN", "JAM SCAN", "NAMA"]).2.mpr (by decide)

/-- Claim C5: the merge is an inner join on the trimmed shipment id, so
every joined row's id is a trimmed id of both source tables, and an id held
by only one table yields no joined row. -/
theorem claim_C5_join_inner (resi : List ScanRow) (sku : List SkuRow) :
    (∀ j ∈ joinResiSku resi sku,
      j.noResi ∈ resi.map (fun r => stripStr r.noResi) ∧
      j.noResi ∈ sku.map (fun s => stripStr s.noResi)) ∧
    (∀ key : String,
      (key ∉ resi.map (fun r => stripStr r.noResi)
        ∨ key ∉ sku.map (fun s => stripStr s.noResi)) →
      ∀ j ∈ joinResiSku resi sku, j.noResi ≠ key) := by
  have hmem : ∀ j ∈ joinResiSku resi sku,
      j.noResi ∈ resi.map (fun r => stripStr r.noResi) ∧
      j.noResi ∈ sku.map (fun s => stripStr s.noResi) := by
    intro j hj
    unfold joinResiSku merge_inner at hj
    rcases List.mem_flatMap.mp hj with ⟨r, hr, hj2⟩
    rcases List.mem_map.mp hj2 with ⟨s, hs, rfl⟩
    rcases List.mem_map.mp hr with ⟨r0, hr0, rfl⟩
    have hs1 := (List.mem_filter.mp hs).1
    have hs2 := (List.mem_filter.mp hs).2
    rcases List.mem_map.mp hs1 with ⟨s0, hs0, rfl⟩
    constructor
    · exact List.mem_map.mpr ⟨r0, hr0, rfl⟩
    · have heq : (strip_sku s0).noResi = (strip_scan r0).noResi := by
        simpa using hs2
      exact List.mem_map.mpr ⟨s0, hs0, heq⟩
  refine ⟨hmem, ?_⟩
  intro key hkey j hj hcontra
  rcases hmem j hj with ⟨h1, h2⟩
  rw [hcontra] at h1 h2
  rcases hkey with hk | hk
  · exact hk h1
  · exact hk h2

/-- Witness for claim C5 on a one-row join whose scan id needs trimming. -/
theorem claim_C5_join_inner_witness :
    sampleJoinedRow.noResi ∈ [sampleScanRow].map (fun r => stripStr r.noResi) ∧
    sampleJoinedRow.noResi ∈ [sampleSkuRow].map (fun s => stripStr s.noResi) :=
  (claim_C5_join_inner [sampleScanRow] [sampleSkuRow]).1 sampleJoinedRow (by decide)

/-- Rows of aggFor carry the shipment id they were built for. -/
lemma aggFor_noResi (specialSet : List String) (hm : String → Option ℚ)
    (df : List JoinedRow) (r : String) : (aggFor specialSet hm df r).noResi = r := rfl

/-- find? with an equality-with-x predicate returns x itself whenever x is a
member. -/
lemma find?_beq_self (l : List String) (x : String) (hx : x ∈ l) :
    l.find? (fun y => y == x) = some x := by
  induction l with
  | nil => cases hx
  | cons a as ih =>
    by_cases h : (a == x) = true
    · rw [@List.find?_cons_of_pos String (fun y => y == x) a as h]
      have heq : a = x := by simpa using h
      rw [heq]
    · rw [@List.find?_cons_of_neg String (fun y => y == x) a as h]
      apply ih
      rcases List.mem_cons.mp hx with h1 | h1
      · exact absurd (by simp [h1]) h
      · exact h1

/-- The left-merge lookup into agg succeeds for every id of the joined
table and returns that id's aggregate row. -/
lemma lookup_buildAgg (specialSet : List String) (hm : String → Option ℚ)
    (df : List JoinedRow) (x : String) (hx : x ∈ resis df) :
    (buildAgg specialSet hm df).find? (fun a => a.noResi == x)
      = some (aggFor specialSet hm df x) := by
  unfold buildAgg
  rw [List.find?_map]
  have hcomp : ((fun a : AggRow => a.noResi == x) ∘ (aggFor specialSet hm df))
      = (fun r => r == x) := by
    funext r
    rfl
  rw [hcomp, find?_beq_self (resis df) x hx]
  rfl

/-- Every joined row's id is a group key of the aggregation. -/
lemma mem_resis_of_mem (df : List JoinedRow) (j : JoinedRow) (hj : j ∈ df) :
    j.noResi ∈ resis df := by
  unfold resis
  exact List.mem_dedup.mpr (List.mem_map.mpr ⟨j, hj, rfl⟩)

/-- statusRes answers OK on a met allowance. -/
lemma statusRes_eq_OK {a b : ℚ} (h : a ≤ b) : statusRes a b = "OK" := if_pos h

/-- statusRes answers LAMBAT on a missed allowance. -/
lemma statusRes_eq_LAMBAT {a b : ℚ} (h : ¬ a ≤ b) : statusRes a b = "LAMBAT" := if_neg h

/-- statusRes only ever produces OK or LAMBAT. -/
lemma statusRes_cases (a b : ℚ) : statusRes a b = "OK" ∨ statusRes a b = "LAMBAT" := by
  unfold statusRes
  by_cases h : a ≤ b
  · left
    rw [if_pos h]
  · right
    rw [if_neg h]

/-- dedupByResiGo only keeps rows of its input. -/
lemma dedupByResiGo_subset (l : List OutRow) : ∀ (seen : List String) (x : OutRow),
    x ∈ dedupByResiGo seen l → x ∈ l := by
  induction l with
  | nil =>
    intro seen x hx
    rw [show dedupByResiGo seen [] = [] from rfl] at hx
    cases hx
  | cons r rest ih =>
    intro seen x hx
    by_cases h : r.noResi ∈ seen
    · rw [show dedupByResiGo seen (r :: rest) = dedupByResiGo seen rest from by
        simp only [dedupByResiGo]
        rw [if_pos h]] at hx
      exact List.mem_cons_of_mem r (ih seen x hx)
    · rw [show dedupByResiGo seen (r :: rest)
          = r :: dedupByResiGo (r.noResi :: seen) rest from by
        simp only [dedupByResiGo]
        rw [if_neg h]] at hx
      rcases List.mem_cons.mp hx with h1 | h1
      · rw [h1]
        exact List.mem_cons_self r rest
      · exact List.mem_cons_of_mem r (ih _ x h1)

/-- After dedupByResiGo the shipment ids are pairwise distinct and avoid the
already-seen ids. -/
lemma dedupByResiGo_keys (l : List OutRow) : ∀ (seen : List String),
    ((dedupByResiGo seen l).map (fun r => r.noResi)).Nodup ∧
    ∀ x ∈ dedupByResiGo seen l, x.noResi ∉ seen := by
  induction l with
  | nil =>
    intro seen
    constructor
    · rw [show dedupByResiGo seen [] = [] from rfl]
      exact List.nodup_nil
    · intro x hx
      rw [show dedupByResiGo seen [] = [] from rfl] at hx
      cases hx
  | cons r rest ih =>
    intro seen
    by_cases h : r.noResi ∈ seen
    · rw [show dedupByResiGo seen (r :: rest) = dedupByResiGo seen rest from by
        simp only [dedupByResiGo]
        rw [if_pos h]]
      exact ih seen
    · rw [show dedupByResiGo seen (r :: rest)
          = r :: dedupByResiGo (r.noResi :: seen) rest from by
        simp only [dedupByResiGo]
        rw [if_neg h]]
      constructor
      · simp only [List.map_cons]
        apply List.nodup_cons.mpr
        constructor
        · intro habs
          rcases List.mem_map.mp habs with ⟨x, hx, hxe⟩
          exact (ih (r.noResi :: seen)).2 x hx (by
            rw [hxe]
            exact List.mem_cons_self _ _)
        · exact (ih (r.noResi :: seen)).1
      · intro x hx
        rcases List.mem_cons.mp hx with h1 | h1
        · rw [h1]
          exact h
        · intro habs
          exact (ih (r.noResi :: seen)).2 x h1 (List.mem_cons_of_mem _ habs)

/-- A list whose rows all carry status OK or LAMBAT splits exactly into the
two counts. -/
lemma count_partition (l : List OutRow)
    (h : ∀ x ∈ l, x.status = some "OK" ∨ x.status = some "LAMBAT") :
    l.length = l.countP (fun r => r.status == some "OK")
      + l.countP (fun r => r.status == some "LAMBAT") := by
  induction l with
  | nil => rfl
  | cons a as ih =>
    have has : ∀ x ∈ as, x.status = some "OK" ∨ x.status = some "LAMBAT" :=
      fun x hx => h x (List.mem_cons_of_mem a hx)
    rcases h a (List.mem_cons_self a as) with h1 | h1
    · rw [List.countP_cons_of_pos _ _ (by simp [h1]),
        List.countP_cons_of_neg _ _ (by simp [h1]), List.length_cons, ih has]
      omega
    · rw [List.countP_cons_of_neg _ _ (by simp [h1]),
        List.countP_cons_of_pos _ _ (by simp [h1]), List.length_cons, ih has]
      omega

/-- Claim C4: after the broadcast merge every output row carries exactly one
order type and one status, rows of the same shipment agree on both, each
status is OK or LAMBAT (never null), and hence — also after any row filter —
the distinct-shipment count equals the OK count plus the LAMBAT count. -/
theorem claim_C4_status_totality (specialSet : List String) (hm : String → Option ℚ)
    (df : List JoinedRow) (p : OutRow → Bool) :
    (∀ o1 ∈ (mergeBack df (buildAgg specialSet hm df)).filter p,
      ∀ o2 ∈ (mergeBack df (buildAgg specialSet hm df)).filter p,
      o1.noResi = o2.noResi → o1.pesanan = o2.pesanan ∧ o1.status = o2.status) ∧
    (∀ o ∈ (mergeBack df (buildAgg specialSet hm df)).filter p,
      (∃ t, o.pesanan = some t) ∧ (o.status = some "OK" ∨ o.status = some "LAMBAT")) ∧
    (total_resi ((mergeBack df (buildAgg specialSet hm df)).filter p) =
      ok_count ((mergeBack df (buildAgg specialSet hm df)).filter p) +
      bad_count ((mergeBack df (buildAgg specialSet hm df)).filter p)) := by
  have hrowvals : ∀ j ∈ df,
      (mergeRow (buildAgg specialSet hm df) j).pesanan
        = some ((aggFor specialSet hm df j.noResi).pesanan) ∧
      (mergeRow (buildAgg specialSet hm df) j).status
        = some ((aggFor specialSet hm df j.noResi).status) := by
    intro j hj
    have hfind := lookup_buildAgg specialSet hm df j.noResi (mem_resis_of_mem df j hj)
    constructor
    · show ((buildAgg specialSet hm df).find? (fun a => a.noResi == j.noResi)).map
        (fun x => x.pesanan) = _
      rw [hfind]
      rfl
    · show ((buildAgg specialSet hm df).find? (fun a => a.noResi == j.noResi)).map
        (fun x => x.status) = _
      rw [hfind]
      rfl
  have hof : ∀ o ∈ (mergeBack df (buildAgg specialSet hm df)).filter p,
      o.pesanan = some ((aggFor specialSet hm df o.noResi).pesanan) ∧
      o.status = some ((aggFor specialSet hm df o.noResi).status) := by
    intro o ho
    have ho2 := (List.mem_filter.mp ho).1
    unfold mergeBack at ho2
    rcases List.mem_map.mp ho2 with ⟨j, hj, rfl⟩
    exact hrowvals j hj
  refine ⟨?_, ?_, ?_⟩
  · intro o1 h1 o2 h2 hres
    rcases hof o1 h1 with ⟨hp1, hs1⟩
    rcases hof o2 h2 with ⟨hp2, hs2⟩
    rw [hp1, hp2, hs1, hs2, hres]
    exact ⟨rfl, rfl⟩
  · intro o ho
    rcases hof o ho with ⟨hp1, hs1⟩
    refine ⟨⟨_, hp1⟩, ?_⟩
    rw [hs1]
    rcases statusRes_cases
        (((aggFor specialSet hm df o.noResi).durResiSec : ℚ))
        (((aggFor specialSet hm df o.noResi).qtyTotal : ℚ) * 30
          + (aggFor specialSet hm df o.noResi).bonusSec) with h | h
    · left
      rw [show (aggFor specialSet hm df o.noResi).status
          = statusRes (((aggFor specialSet hm df o.noResi).durResiSec : ℚ))
            (((aggFor specialSet hm df o.noResi).qtyTotal : ℚ) * 30
              + (aggFor specialSet hm df o.noResi).bonusSec) from rfl, h]
    · right
      rw [show (aggFor specialSet hm df o.noResi).status
          = statusRes (((aggFor specialSet hm df o.noResi).durResiSec : ℚ))
            (((aggFor specialSet hm df o.noResi).qtyTotal : ℚ) * 30
              + (aggFor specialSet hm df o.noResi).bonusSec) from rfl, h]
  · have hsub : ∀ x ∈ resi_level ((mergeBack df (buildAgg specialSet hm df)).filter p),
        x.status = some "OK" ∨ x.status = some "LAMBAT" := by
      intro x hx
      have hxout := dedupByResiGo_subset _ [] x hx
      rcases hof x hxout with ⟨_, hs1⟩
      rw [hs1]
      rcases statusRes_cases
          (((aggFor specialSet hm df x.noResi).durResiSec : ℚ))
          (((aggFor specialSet hm df x.noResi).qtyTotal : ℚ) * 30
            + (aggFor specialSet hm df x.noResi).bonusSec) with h | h
      · left
        rw [show (aggFor specialSet hm df x.noResi).status
            = statusRes (((aggFor specialSet hm df x.noResi).durResiSec : ℚ))
              (((aggFor specialSet hm df x.noResi).qtyTotal : ℚ) * 30
                + (aggFor specialSet hm df x.noResi).bonusSec) from rfl, h]
      · right
        rw [show (aggFor specialSet hm df x.noResi).status
            = statusRes (((aggFor specialSet hm df x.noResi).durResiSec : ℚ))
              (((aggFor specialSet hm df x.noResi).qtyTotal : ℚ) * 30
                + (aggFor specialSet hm df x.noResi).bonusSec) from rfl, h]
    have hkeys :=
      (dedupByResiGo_keys ((mergeBack df (buildAgg specialSet hm df)).filter p) []).1
    unfold total_resi ok_count bad_count resi_level
    rw [List.dedup_eq_self.mpr hkeys, List.length_map]
    exact count_partition _ hsub

/-- The aggregate the engine computes for the one-row sample table. -/
lemma aggFor_sample : aggFor ["X"] (fun _ => none) [sampleJoined2] "R1"
    = AggRow.mk "R1" 1 2 (some "S") 100 0 "Satuan" "LAMBAT" := by
  have hb : sum_bonus (fun _ : String => (none : Option ℚ)) [sampleJoined2.skuNorm] = 0 := by
    simp [sum_bonus]
  have hg : [sampleJoined2].filter (fun j => j.noResi == "R1") = [sampleJoined2] := by
    decide
  unfold aggFor
  rw [hg]
  have hstat : statusRes ((100 : Int) : ℚ)
      (((2 : Int) : ℚ) * 30 + sum_bonus (fun _ : String => (none : Option ℚ))
        [sampleJoined2.skuNorm]) = "LAMBAT" := by
    apply statusRes_eq_LAMBAT
    rw [hb]
    norm_num
  simp only [List.map, List.sum_cons, List.sum_nil]
  rw [show List.dedup [sampleJoined2.skuNorm] = ["S"] from by decide]
  simp only [List.length_cons, List.length_nil]
  rw [show (sampleJoined2.qty + 0 : Int) = 2 from by decide]
  rw [show ((List.head? [sampleJoined2.durSec]).getD 0 : Int) = 100 from by decide]
  rw [hstat, hb]
  rfl

/-- The engine output for the one-row sample table. -/
lemma mergeBack_sample :
    mergeBack [sampleJoined2] (buildAgg ["X"] (fun _ => none) [sampleJoined2])
      = [sampleOutRow] := by
  have hresis : resis [sampleJoined2] = ["R1"] := by
    decide
  have hagg : buildAgg ["X"] (fun _ => none) [sampleJoined2]
      = [aggFor ["X"] (fun _ => none) [sampleJoined2] "R1"] := by
    unfold buildAgg
    rw [hresis]
    rfl
  have hfind : (buildAgg ["X"] (fun _ => none) [sampleJoined2]).find?
      (fun a => a.noResi == sampleJoined2.noResi)
      = some (aggFor ["X"] (fun _ => none) [sampleJoined2] "R1") := by
    rw [hagg]
    apply List.find?_cons_of_pos
    decide
  unfold mergeBack
  simp only [List.map]
  unfold mergeRow
  rw [hfind, aggFor_sample]
  rfl

/-- Membership of the sample output row in the engine output. -/
lemma sampleOut_mem :
    sampleOutRow ∈ (mergeBack [sampleJoined2]
      (buildAgg ["X"] (fun _ => none) [sampleJoined2])).filter (fun _ => true) := by
  rw [mergeBack_sample]
  simp

/-- Witness for claim C4 on a one-row table: the produced row has an order
type and an OK-or-LAMBAT status. -/
theorem claim_C4_status_totality_witness :
    (∃ t, sampleOutRow.pesanan = some t) ∧
    (sampleOutRow.status = some "OK" ∨ sampleOutRow.status = some "LAMBAT") :=
  (claim_C4_status_totality ["X"] (fun _ => none) [sampleJoined2]
      (fun _ => true)).2.1 sampleOutRow sampleOut_mem

/-- The NaT-last comparison is total. -/
lemma leOptDT_total (x y : Option Int) : leOptDT x y = true ∨ leOptDT y x = true := by
  cases x <;> cases y <;> simp [leOptDT] <;> omega

/-- The NaT-last comparison is transitive. -/
lemma leOptDT_trans {x y z : Option Int} (h1 : leOptDT x y = true)
    (h2 : leOptDT y z = true) : leOptDT x z = true := by
  cases x <;> cases y <;> cases z <;> simp_all [leOptDT] <;> omega

/-- The NaT-last comparison is antisymmetric. -/
lemma leOptDT_antisymm {x y : Option Int} (h1 : leOptDT x y = true)
    (h2 : leOptDT y x = true) : x = y := by
  cases x <;> cases y <;> simp_all [leOptDT] <;> omega

/-- The lexicographic row comparison is total. -/
lemma rowLe_total (r1 r2 : RawScan) : rowLe r1 r2 = true ∨ rowLe r2 r1 = true := by
  unfold rowLe
  by_cases h : r1.nama = r2.nama
  · rw [if_pos h, if_pos h.symm]
    by_cases ht : r1.tgl = r2.tgl
    · rw [if_pos ht, if_pos ht.symm]
      exact leOptDT_total _ _
    · rw [if_neg ht, if_neg (fun hh => ht hh.symm)]
      exact leOptDT_total _ _
  · rw [if_neg h, if_neg (fun hh => h hh.symm)]
    rcases lt_trichotomy r1.nama r2.nama with hl | he | hl
    · left
      exact decide_eq_true hl
    · exact absurd he h
    · right
      exact decide_eq_true hl

/-- The lexicographic row comparison is transitive. -/
lemma rowLe_trans {a b c : RawScan} (h1 : rowLe a b = true) (h2 : rowLe b c = true) :
    rowLe a c = true := by
  unfold rowLe at h1 h2 ⊢
  by_cases hab : a.nama = b.nama <;> by_cases hbc : b.nama = c.nama
  · have hac : a.nama = c.nama := hab.trans hbc
    rw [if_pos hab] at h1
    rw [if_pos hbc] at h2
    rw [if_pos hac]
    by_cases tab : a.tgl = b.tgl <;> by_cases tbc : b.tgl = c.tgl
    · have tac : a.tgl = c.tgl := tab.trans tbc
      rw [if_pos tab] at h1
      rw [if_pos tbc] at h2
      rw [if_pos tac]
      exact leOptDT_trans h1 h2
    · have tac : a.tgl ≠ c.tgl := fun hh => tbc (tab.symm.trans hh)
      rw [if_pos tab] at h1
      rw [if_neg tbc] at h2
      rw [if_neg tac, tab]
      exact h2
    · have tac : a.tgl ≠ c.tgl := fun hh => tab (hh.trans tbc.symm)
      rw [if_neg tab] at h1
      rw [if_pos tbc] at h2
      rw [if_neg tac, ← tbc]
      exact h1
    · rw [if_neg tab] at h1
      rw [if_neg tbc] at h2
      by_cases tac : a.tgl = c.tgl
      · exfalso
        exact tab (leOptDT_antisymm h1 (by
          rw [tac]
          exact h2))
      · rw [if_neg tac]
        exact leOptDT_trans h1 h2
  · have hac : a.nama ≠ c.nama := fun hh => hbc (hab.symm.trans hh)
    rw [if_pos hab] at h1
    rw [if_neg hbc] at h2
    rw [if_neg hac, hab]
    exact h2
  · have hac : a.nama ≠ c.nama := fun hh => hab (hh.trans hbc.symm)
    rw [if_neg hab] at h1
    rw [if_pos hbc] at h2
    rw [if_neg hac, ← hbc]
    exact h1
  · rw [if_neg hab] at h1
    rw [if_neg hbc] at h2
    have l3 : a.nama < c.nama := lt_trans (of_decide_eq_true h1) (of_decide_eq_true h2)
    rw [if_neg (ne_of_lt l3)]
    exact decide_eq_true l3

/-- A row with either timestamp missing gets zero duration. -/
lemma durSec_none_left (y : Option Int) : durSec none y = 0 := by
  cases y <;> rfl

/-- A row with no next timestamp gets zero duration. -/
lemma durSec_none_right (x : Option Int) : durSec x none = 0 := by
  cases x <;> rfl

/-- Durations are never negative. -/
lemma durSec_nonneg (x y : Option Int) : 0 ≤ durSec x y := by
  cases x <;> cases y <;> simp [durSec]

/-- durAt unfolded at an in-range index. -/
lemma durAt_eq (rows : List RawScan) (i : Nat) (r : RawScan) (h : rows[i]? = some r) :
    durAt rows i = durSec r.dt (scanNext rows i) := by
  unfold durAt
  rw [h]

/-- The DURASI_SEC column read at an in-range index. -/
lemma durAll_getD (rows : List RawScan) (i : Nat) (hi : i < (sortedScans rows).length) :
    (durAll rows).getD i 1 = durAt (sortedScans rows) i := by
  unfold durAll
  rw [List.getD_eq_getElem?_getD, List.getElem?_map, List.getElem?_range hi]
  rfl

/-- The DURASI_SEC column has one entry per scan row. -/
lemma durAll_length (rows : List RawScan) : (durAll rows).length = rows.length := by
  unfold durAll
  rw [List.length_map, List.length_range]
  exact List.Perm.length_eq (List.perm_insertionSort rowLeP rows)

/-- Claim C3: the scan table is sorted by operator, day and timestamp (a
permutation of the input, NaT last); each row's duration is the clamped
difference to the next same-(operator, day) row's timestamp; rows with an
unparseable timestamp and rows without a next group row (in particular the
last row of each group) get 0; hence every duration is non-negative. -/
theorem claim_C3_duration_spec (rows : List RawScan) :
    ((durAll rows).length = rows.length) ∧
    (∀ x ∈ durAll rows, 0 ≤ x) ∧
    (∀ i r, (sortedScans rows)[i]? = some r → r.dt = none →
      (durAll rows).getD i 1 = 0) ∧
    (∀ i r, (sortedScans rows)[i]? = some r → scanNext (sortedScans rows) i = none →
      (durAll rows).getD i 1 = 0) ∧
    (∀ i r a b, (sortedScans rows)[i]? = some r → r.dt = some a →
      scanNext (sortedScans rows) i = some b →
      (durAll rows).getD i 1 = max (b - a) 0) ∧
    List.Sorted rowLeP (sortedScans rows) ∧
    (sortedScans rows).Perm rows := by
  have hlt : ∀ {i : Nat} {r : RawScan}, (sortedScans rows)[i]? = some r →
      i < (sortedScans rows).length := by
    intro i r h
    rcases List.getElem?_eq_some_iff.mp h with ⟨hi, _⟩
    exact hi
  refine ⟨durAll_length rows, ?_, ?_, ?_, ?_, ?_, List.perm_insertionSort rowLeP rows⟩
  · intro x hx
    unfold durAll at hx
    rcases List.mem_map.mp hx with ⟨i, _, rfl⟩
    unfold durAt
    cases h : (sortedScans rows)[i]? with
    | none => exact le_refl 0
    | some r => exact durSec_nonneg r.dt (scanNext (sortedScans rows) i)
  · intro i r h hdt
    rw [durAll_getD rows i (hlt h), durAt_eq _ i r h, hdt]
    exact durSec_none_left _
  · intro i r h hnext
    rw [durAll_getD rows i (hlt h), durAt_eq _ i r h, hnext]
    exact durSec_none_right _
  · intro i r a b h hdt hnext
    rw [durAll_getD rows i (hlt h), durAt_eq _ i r h, hdt, hnext]
    rfl
  · haveI : IsTotal RawScan rowLeP := ⟨rowLe_total⟩
    haveI : IsTrans RawScan rowLeP := ⟨fun _ _ _ => rowLe_trans⟩
    exact List.sorted_insertionSort rowLeP rows

/-- Witness for claim C3: two scans of one operator on one day, 100s and
400s into the day, give the first row a 300-second duration. -/
theorem claim_C3_duration_spec_witness :
    (durAll sampleScans).getD 0 1 = max (400 - 100) 0 :=
  (claim_C3_duration_spec sampleScans).2.2.2.2.1 0 (RawScan.mk "A" (some 0) (some 100))
    100 400 (by decide) rfl (by decide)

end PackingApp
